import Mathlib

/-!
Verification of the security-pipeline sample application (src/app.py).

Numbers are modelled as rationals; the Python builtin round(x, 2) is
modelled by roundHalfEven (round-half-to-even, to 2 decimal places).
Dictionaries with a fixed key set are modelled as structures, a key that
may be absent becomes an Option field. Exceptions become Except results.
-/

namespace SecurityPipeline

/-- Round-half-to-even of a rational to an integer, the tie-breaking rule
of the Python builtin round. -/
def roundHalfEven (x : ℚ) : ℤ :=
  if x - ⌊x⌋ < 1/2 then ⌊x⌋
  else if 1/2 < x - ⌊x⌋ then ⌊x⌋ + 1
  else if ⌊x⌋ % 2 = 0 then ⌊x⌋ else ⌊x⌋ + 1

/-- Model of the Python builtin round(x, 2): round to 2 decimal places,
ties to even. -/
def round2 (x : ℚ) : ℚ := (roundHalfEven (x * 100) : ℚ) / 100

/-- calculate_discount from src/app.py: validates price and
discount_percent, then returns round(price - price * (discount_percent / 100), 2).
A raised ValueError becomes an Except.error carrying the message. -/
def calculate_discount (price discount_percent : ℚ) : Except String ℚ :=
  if price < 0 then .error "Price cannot be negative"
  else if ¬ (0 ≤ discount_percent ∧ discount_percent ≤ 100) then
    .error "Discount must be between 0 and 100"
  else
    let discount_amount := price * (discount_percent / 100)
    .ok (round2 (price - discount_amount))

/-- The dictionary returned by process_data: sum, average, min, max are
always present (min and max hold null, modelled none, for empty input);
the count key is absent, modelled none, exactly when the code omits it. -/
structure StatsResult where
  sum : ℚ
  average : ℚ
  min : Option ℚ
  max : Option ℚ
  count : Option ℕ
deriving Repr, DecidableEq

/-- process_data from src/app.py: statistics over a list of numbers.
The Python builtins min and max over a non-empty sequence are left folds
of the binary min and max over the remaining elements. -/
def process_data (data : List ℚ) : StatsResult :=
  match data with
  | [] => { sum := 0, average := 0, min := none, max := none, count := none }
  | x :: xs =>
    let total := x + xs.sum
    { sum := total
      average := round2 (total / (xs.length + 1 : ℕ))
      min := some (xs.foldl Min.min x)
      max := some (xs.foldl Max.max x)
      count := some (xs.length + 1) }

/-- A stored row of the users table: the data model record. -/
structure UserRow where
  id : ℕ
  username : String
  email : String
  password_hash : String
deriving Repr, DecidableEq

/-- The contents of a users table. -/
abbrev DB := List UserRow

/-- The dictionary built by get_user_unsafe and get_user_safe from a
fetched row: result[0], result[1] and result[2] only. -/
structure UserDict where
  id : ℕ
  username : String
  email : String
deriving Repr, DecidableEq

/-- A sqlite3 connection handle: what sqlite3.connect(db_path) captures.
Row contents live in the external store, keyed by path. -/
structure Connection where
  path : String
deriving Repr, DecidableEq

/-- The external sqlite store: table contents per database path. -/
abbrev Store := String → DB

/-- The state of a UserManager instance: the fields set in __init__. -/
structure UserManager where
  db_path : String
  connection : Option Connection
deriving Repr, DecidableEq

/-- UserManager.connect: self.connection = sqlite3.connect(self.db_path). -/
def UserManager.connect (m : UserManager) : UserManager :=
  { m with connection := some { path := m.db_path } }

/-- UserManager.close: if self.connection, close it and set it to None. -/
def UserManager.close (m : UserManager) : UserManager :=
  match m.connection with
  | some _ => { m with connection := none }
  | none => m

/-- The lazy-open prelude shared by get_user_unsafe, get_user_safe and
create_user — if not self.connection: self.connect() — followed by the
use of self.connection, which at that point is set. Returns the handle
used for the query together with the possibly updated state. -/
def UserManager.currentConn (m : UserManager) : Connection × UserManager :=
  match m.connection with
  | some c => (c, m)
  | none => ({ path := m.db_path }, m.connect)

/-- The single-quote character, the query metacharacter relevant to the
interpolated SELECT text. -/
def singleQuote : Char := Char.ofNat 39

/-- Modelled from the spec: the external SQL engine reading the query text
built by get_user_unsafe, which interpolates the username between two
single quotes. When the username contains no single quote, the engine
parses the whole username as the compared literal and the statement is the
intended lookup; when it contains one, the literal ends there and the rest
of the username becomes statement text, so the statement no longer means
the intended lookup (the spec: query semantics demonstrably altered).
That altered case is modelled as an error result. -/
def parseInterpolatedLiteral (username : String) : Except String String :=
  if username.data.contains singleQuote then
    .error "query semantics altered by quote in username"
  else .ok username

/-- Modelled from the spec: execution of
SELECT * FROM users WHERE username = <value> followed by fetchone —
the first row whose username column equals the compared value, if any. -/
def selectByUsername (db : DB) (value : String) : Option UserRow :=
  db.find? (fun r => r.username = value)

/-- The dictionary literal built from a fetched row. -/
def rowToDict (r : UserRow) : UserDict :=
  { id := r.id, username := r.username, email := r.email }

/-- UserManager.get_user_unsafe: lazy-connect, interpolate the username
into the query text, execute, fetchone, and build the result dictionary
(or None). Altered query semantics from an embedded quote surface as an
error. -/
def UserManager.get_user_unsafe (store : Store) (m : UserManager) (username : String) :
    UserManager × Except String (Option UserDict) :=
  let conn := (m.currentConn).1
  let m2 := (m.currentConn).2
  match parseInterpolatedLiteral username with
  | .error e => (m2, .error e)
  | .ok lit => (m2, .ok ((selectByUsername (store conn.path) lit).map rowToDict))

/-- UserManager.get_user_safe: lazy-connect, execute the parameterized
query binding the username, fetchone, and build the result dictionary
(or None). The bound value is always compared literally. -/
def UserManager.get_user_safe (store : Store) (m : UserManager) (username : String) :
    UserManager × Except String (Option UserDict) :=
  let conn := (m.currentConn).1
  let m2 := (m.currentConn).2
  (m2, .ok ((selectByUsername (store conn.path) username).map rowToDict))

/-- The hashlib digests are external primitives; the property used here is
only which digest each wrapper applies, so both are parameters. -/
structure HashLib where
  md5Hex : String → String
  sha256Hex : String → String

/-- UserManager._hash_password_weak: the MD5 hex digest of the password. -/
def UserManager.hash_password_weak (H : HashLib) (password : String) : String :=
  H.md5Hex password

/-- UserManager._hash_password: the SHA-256 hex digest of the password. -/
def UserManager.hash_password (H : HashLib) (password : String) : String :=
  H.sha256Hex password

/-- UserManager.create_user: lazy-connect, hash the password with
_hash_password, INSERT the row with bound parameters and commit, returning
True; inserting a username that already exists violates the uniqueness
constraint on username, raising sqlite3.IntegrityError, which is caught
and turned into False with the store unchanged. The id column is assigned
by the store (next row id, modelled from the spec: the engine is an
external collaborator). -/
def UserManager.create_user (store : Store) (H : HashLib) (m : UserManager)
    (username email password : String) : UserManager × Store × Bool :=
  let conn := (m.currentConn).1
  let m2 := (m.currentConn).2
  let db := store conn.path
  if db.any (fun r => r.username = username) then
    (m2, store, false)
  else
    let row : UserRow :=
      { id := db.length + 1, username := username, email := email,
        password_hash := UserManager.hash_password H password }
    (m2, fun p => if p = conn.path then db ++ [row] else store p, true)

/-- A process environment: os.environ.get returns the bound value or
none. -/
abbrev Env := String → Option String

/-- os.environ.get with a default value. -/
def envGet (env : Env) (key dflt : String) : String := (env key).getD dflt

/-- ConfigManager.DEFAULT_API_KEY. -/
def DEFAULT_API_KEY : String := "sk-1234567890abcdef"

/-- ConfigManager.DEFAULT_DB_PASSWORD. -/
def DEFAULT_DB_PASSWORD : String := "admin123"

/-- The fields a ConfigManager instance stores: only api_key and
db_password are set in __init__. -/
structure ConfigManager where
  api_key : String
  db_password : String
deriving Repr, DecidableEq

/-- ConfigManager.__init__ under the environment env current at
construction. -/
def ConfigManager.construct (env : Env) : ConfigManager :=
  { api_key := envGet env "API_KEY" DEFAULT_API_KEY
    db_password := envGet env "DB_PASSWORD" DEFAULT_DB_PASSWORD }

/-- ConfigManager.get_api_key. -/
def ConfigManager.get_api_key (c : ConfigManager) : String := c.api_key

/-- ConfigManager.get_database_url: host, port, user and database are read
from os.environ at call time (env is the environment current at the call);
only the password comes from the field resolved at construction. -/
def ConfigManager.get_database_url (c : ConfigManager) (env : Env) : String :=
  let host := envGet env "DB_HOST" "localhost"
  let port := envGet env "DB_PORT" "5432"
  let user := envGet env "DB_USER" "admin"
  let database := envGet env "DB_NAME" "app"
  "postgresql://" ++ user ++ ":" ++ c.db_password ++ "@" ++ host ++ ":" ++ port
    ++ "/" ++ database

theorem roundHalfEven_mono {x y : ℚ} (h : x ≤ y) : roundHalfEven x ≤ roundHalfEven y := by
  have hf : ⌊x⌋ ≤ ⌊y⌋ := Int.floor_le_floor h
  rcases eq_or_lt_of_le hf with heq | hlt
  · have hxy : x - ⌊x⌋ ≤ y - ⌊y⌋ := by
      rw [← heq]; linarith
    unfold roundHalfEven
    rw [← heq]
    split_ifs <;> first | omega | linarith
  · unfold roundHalfEven
    split_ifs <;> omega

theorem round2_mono {x y : ℚ} (h : x ≤ y) : round2 x ≤ round2 y := by
  have h1 : roundHalfEven (x * 100) ≤ roundHalfEven (y * 100) :=
    roundHalfEven_mono (by linarith)
  have h2 : ((roundHalfEven (x * 100) : ℤ) : ℚ) ≤ ((roundHalfEven (y * 100) : ℤ) : ℚ) := by
    exact_mod_cast h1
  unfold round2
  linarith

theorem calculate_discount_ok (price d : ℚ) (hp : 0 ≤ price) (h0 : 0 ≤ d) (h1 : d ≤ 100) :
    calculate_discount price d = .ok (round2 (price - price * (d / 100))) := by
  unfold calculate_discount
  rw [if_neg (not_lt.mpr hp), if_neg (not_not_intro ⟨h0, h1⟩)]

/-- C1: for every price ≥ 0 and discount percent d with 0 ≤ d ≤ 100,
calculate_discount price d returns round2 (price * (1 - d / 100)), i.e.
the price reduced by d percent, rounded to 2 decimal places; in
particular calculate_discount 100 0 = 100 and
calculate_discount 100 100 = 0. -/
theorem calculate_discount_formula (price d : ℚ)
    (hp : 0 ≤ price) (h0 : 0 ≤ d) (h1 : d ≤ 100) :
    calculate_discount price d = .ok (round2 (price * (1 - d / 100))) ∧
    calculate_discount 100 0 = .ok 100 ∧
    calculate_discount 100 100 = .ok 0 := by
  refine ⟨?_, ?_, ?_⟩
  · rw [calculate_discount_ok price d hp h0 h1]
    have harg : price - price * (d / 100) = price * (1 - d / 100) := by ring
    rw [harg]
  · norm_num [calculate_discount, round2, roundHalfEven]
  · norm_num [calculate_discount, round2, roundHalfEven]

theorem calculate_discount_formula_witness :
    calculate_discount 80 25 = .ok (round2 (80 * (1 - 25 / 100))) ∧
    calculate_discount 100 0 = .ok 100 ∧
    calculate_discount 100 100 = .ok 0 :=
  calculate_discount_formula 80 25 (by norm_num) (by norm_num) (by norm_num)

/-- C6: calculate_discount fails with a ValueError carrying a descriptive
message exactly when price < 0 or the discount percent is outside
[0, 100]; on every other input it returns a value; in particular
calculate_discount (-1) 10 and calculate_discount 100 150 both fail. -/
theorem calculate_discount_error_iff (price d : ℚ) :
    ((∃ msg, calculate_discount price d = .error msg) ↔
      (price < 0 ∨ d < 0 ∨ 100 < d)) ∧
    (¬ (price < 0 ∨ d < 0 ∨ 100 < d) → ∃ v, calculate_discount price d = .ok v) ∧
    calculate_discount (-1) 10 = .error "Price cannot be negative" ∧
    calculate_discount 100 150 = .error "Discount must be between 0 and 100" := by
  refine ⟨?_, ?_, ?_, ?_⟩
  · unfold calculate_discount
    split_ifs with hp hd
    · exact iff_of_true ⟨_, rfl⟩ (Or.inl hp)
    · refine iff_of_false ?_ ?_
      · rintro ⟨msg, hmsg⟩
        exact hmsg
      · push_neg
        exact ⟨not_lt.mp hp, hd.1, hd.2⟩
    · push_neg at hd
      refine iff_of_true ⟨_, rfl⟩ ?_
      rcases lt_or_le d 0 with hneg | hnonneg
      · exact Or.inr (Or.inl hneg)
      · exact Or.inr (Or.inr (hd hnonneg))
  · intro hok
    push_neg at hok
    exact ⟨_, calculate_discount_ok price d hok.1 hok.2.1 hok.2.2⟩
  · norm_num [calculate_discount]
  · norm_num [calculate_discount]

/-- C10: calculate_discount is non-increasing in the discount percent:
for price ≥ 0 and 0 ≤ d1 ≤ d2 ≤ 100, both calls return values and the
value at d2 is at most the value at d1. -/
theorem calculate_discount_antitone (price d1 d2 : ℚ) (hp : 0 ≤ price)
    (h0 : 0 ≤ d1) (h12 : d1 ≤ d2) (h2 : d2 ≤ 100) :
    ∃ v1 v2, calculate_discount price d1 = .ok v1 ∧
      calculate_discount price d2 = .ok v2 ∧ v2 ≤ v1 := by
  refine ⟨_, _, calculate_discount_ok price d1 hp h0 (le_trans h12 h2),
    calculate_discount_ok price d2 hp (le_trans h0 h12) h2, ?_⟩
  apply round2_mono
  have hm : price * d1 ≤ price * d2 := mul_le_mul_of_nonneg_left h12 hp
  linarith

theorem calculate_discount_antitone_witness :
    ∃ v1 v2, calculate_discount 100 10 = .ok v1 ∧
      calculate_discount 100 60 = .ok v2 ∧ v2 ≤ v1 :=
  calculate_discount_antitone 100 10 60 (by norm_num) (by norm_num)
    (by norm_num) (by norm_num)

theorem foldl_min_mem (x : ℚ) (xs : List ℚ) : xs.foldl Min.min x ∈ x :: xs := by
  induction xs generalizing x with
  | nil => simp
  | cons y ys ih =>
    simp only [List.foldl_cons]
    rcases List.mem_cons.1 (ih (Min.min x y)) with h1 | h1
    · rw [h1]
      rcases min_choice x y with h2 | h2 <;> simp [h2]
    · exact List.mem_cons_of_mem _ (List.mem_cons_of_mem _ h1)

theorem foldl_min_le (x : ℚ) (xs : List ℚ) : ∀ z ∈ x :: xs, xs.foldl Min.min x ≤ z := by
  induction xs generalizing x with
  | nil =>
    intro z hz
    simp only [List.mem_cons, List.not_mem_nil, or_false] at hz
    simp [hz]
  | cons y ys ih =>
    intro z hz
    simp only [List.foldl_cons]
    rcases List.mem_cons.1 hz with rfl | hz1
    · exact le_trans (ih (Min.min z y) (Min.min z y) (List.mem_cons_self _ _))
        (min_le_left z y)
    · rcases List.mem_cons.1 hz1 with rfl | hz2
      · exact le_trans (ih (Min.min x z) (Min.min x z) (List.mem_cons_self _ _))
          (min_le_right x z)
      · exact ih (Min.min x y) z (List.mem_cons_of_mem _ hz2)

theorem foldl_max_mem (x : ℚ) (xs : List ℚ) : xs.foldl Max.max x ∈ x :: xs := by
  induction xs generalizing x with
  | nil => simp
  | cons y ys ih =>
    simp only [List.foldl_cons]
    rcases List.mem_cons.1 (ih (Max.max x y)) with h1 | h1
    · rw [h1]
      rcases max_choice x y with h2 | h2 <;> simp [h2]
    · exact List.mem_cons_of_mem _ (List.mem_cons_of_mem _ h1)

theorem foldl_max_ge (x : ℚ) (xs : List ℚ) : ∀ z ∈ x :: xs, z ≤ xs.foldl Max.max x := by
  induction xs generalizing x with
  | nil =>
    intro z hz
    simp only [List.mem_cons, List.not_mem_nil, or_false] at hz
    simp [hz]
  | cons y ys ih =>
    intro z hz
    simp only [List.foldl_cons]
    rcases List.mem_cons.1 hz with rfl | hz1
    · exact le_trans (le_max_left z y)
        (ih (Max.max z y) (Max.max z y) (List.mem_cons_self _ _))
    · rcases List.mem_cons.1 hz1 with rfl | hz2
      · exact le_trans (le_max_right x z)
          (ih (Max.max x z) (Max.max x z) (List.mem_cons_self _ _))
      · exact ih (Max.max x y) z (List.mem_cons_of_mem _ hz2)

/-- C2: process_data on the empty list returns sum 0, average 0, min and
max null, and no count key; on any non-empty list it returns the sum of
the elements, the mean rounded to 2 decimal places, the minimum, the
maximum and the length; in particular at [42] and [10, 20, 30, 40, 50]
it returns the stated dictionaries. -/
theorem process_data_spec (data : List ℚ) :
    process_data [] = { sum := 0, average := 0, min := none, max := none, count := none } ∧
    (data ≠ [] →
      (process_data data).sum = data.sum ∧
      (process_data data).average = round2 (data.sum / (data.length : ℚ)) ∧
      (∃ lo, (process_data data).min = some lo ∧ lo ∈ data ∧ ∀ z ∈ data, lo ≤ z) ∧
      (∃ hi, (process_data data).max = some hi ∧ hi ∈ data ∧ ∀ z ∈ data, z ≤ hi) ∧
      (process_data data).count = some data.length) ∧
    process_data [42] =
      { sum := 42, average := 42, min := some 42, max := some 42, count := some 1 } ∧
    process_data [10, 20, 30, 40, 50] =
      { sum := 150, average := 30, min := some 10, max := some 50, count := some 5 } := by
  refine ⟨rfl, ?_, ?_, ?_⟩
  · intro hne
    match data with
    | x :: xs =>
      refine ⟨?_, ?_, ?_, ?_, ?_⟩
      · simp [process_data]
      · simp only [process_data, List.sum_cons, List.length_cons]
      · exact ⟨_, rfl, foldl_min_mem x xs, foldl_min_le x xs⟩
      · exact ⟨_, rfl, foldl_max_mem x xs, foldl_max_ge x xs⟩
      · simp [process_data]
  · norm_num [process_data, round2, roundHalfEven]
  · norm_num [process_data, round2, roundHalfEven]

theorem process_data_spec_witness :
    (process_data [42]).sum = ([42] : List ℚ).sum ∧
    (process_data [42]).count = some ([42] : List ℚ).length := by
  have h := (process_data_spec [42]).2.1 (by simp)
  exact ⟨h.1, h.2.2.2.2⟩

theorem currentConn_none (m : UserManager) (h : m.connection = none) :
    m.currentConn = ({ path := m.db_path }, m.connect) := by
  simp [UserManager.currentConn, h]

theorem currentConn_some (m : UserManager) (c : Connection) (h : m.connection = some c) :
    m.currentConn = (c, m) := by
  simp [UserManager.currentConn, h]

theorem get_user_unsafe_state (store : Store) (m : UserManager) (username : String) :
    (UserManager.get_user_unsafe store m username).1 = (m.currentConn).2 := by
  unfold UserManager.get_user_unsafe
  cases parseInterpolatedLiteral username <;> rfl

theorem get_user_safe_state (store : Store) (m : UserManager) (username : String) :
    (UserManager.get_user_safe store m username).1 = (m.currentConn).2 := rfl

theorem create_user_state (store : Store) (H : HashLib) (m : UserManager)
    (username email password : String) :
    (UserManager.create_user store H m username email password).1 = (m.currentConn).2 := by
  simp only [UserManager.create_user]
  split <;> rfl

/-- C8: close is safe to call when the connection is already closed: for
every state it leaves the connection field None and the path unchanged,
and when the connection is already None it is the identity. -/
theorem close_safe (m : UserManager) :
    (UserManager.close m).connection = none ∧
    (UserManager.close m).db_path = m.db_path ∧
    (m.connection = none → UserManager.close m = m) := by
  cases hm : m.connection <;> simp [UserManager.close, hm]

theorem close_safe_witness :
    (UserManager.close { db_path := "users.db", connection := none }).connection = none ∧
    (UserManager.close { db_path := "users.db", connection := none }).db_path = "users.db" ∧
    (({ db_path := "users.db", connection := none } : UserManager).connection = none →
      UserManager.close { db_path := "users.db", connection := none } =
        { db_path := "users.db", connection := none }) :=
  close_safe { db_path := "users.db", connection := none }

/-- C9: lazy-open invariant: get_user_unsafe, get_user_safe and
create_user open a new connection (to the configured path) only when the
connection field is None; when a connection exists they leave the field
bound to that same handle; and after any of them the field is not None. -/
theorem lazy_open_invariant (store : Store) (H : HashLib) (m : UserManager)
    (username email password : String) :
    (∀ c, m.connection = some c →
      (UserManager.get_user_unsafe store m username).1.connection = some c ∧
      (UserManager.get_user_safe store m username).1.connection = some c ∧
      (UserManager.create_user store H m username email password).1.connection = some c) ∧
    (m.connection = none →
      (UserManager.get_user_unsafe store m username).1.connection = some { path := m.db_path } ∧
      (UserManager.get_user_safe store m username).1.connection = some { path := m.db_path } ∧
      (UserManager.create_user store H m username email password).1.connection
        = some { path := m.db_path }) ∧
    (UserManager.get_user_unsafe store m username).1.connection ≠ none ∧
    (UserManager.get_user_safe store m username).1.connection ≠ none ∧
    (UserManager.create_user store H m username email password).1.connection ≠ none := by
  rw [get_user_unsafe_state, get_user_safe_state, create_user_state]
  cases hm : m.connection with
  | none =>
    rw [currentConn_none m hm]
    simp [UserManager.connect]
  | some c =>
    rw [currentConn_some m c hm]
    simp [hm]

theorem lazy_open_invariant_witness :
    (UserManager.get_user_safe (fun _ => [])
        { db_path := "users.db", connection := some { path := "users.db" } }
        "alice").1.connection = some { path := "users.db" } := by
  have h := lazy_open_invariant (fun _ => []) ⟨fun s => s, fun s => s⟩
    { db_path := "users.db", connection := some { path := "users.db" } }
    "alice" "alice@example.com" "pw"
  exact (h.1 { path := "users.db" } rfl).2.1

theorem get_user_agree_aux (store : Store) (m : UserManager) (username : String)
    (h : username.data.contains singleQuote = false) :
    UserManager.get_user_unsafe store m username =
      UserManager.get_user_safe store m username := by
  have h2 : singleQuote ∉ username.data := by simpa using h
  simp [UserManager.get_user_unsafe, UserManager.get_user_safe,
    parseInterpolatedLiteral, h2]

/-- C4: for every store, every manager state and every username containing
no query metacharacter (no single quote), get_user_unsafe and
get_user_safe return identical results, final state included. -/
theorem get_user_unsafe_eq_safe (store : Store) (m : UserManager) (username : String)
    (h : username.data.contains singleQuote = false) :
    UserManager.get_user_unsafe store m username =
      UserManager.get_user_safe store m username :=
  get_user_agree_aux store m username h

theorem get_user_unsafe_eq_safe_witness :
    ("alice".data.contains singleQuote = false) ∧
    UserManager.get_user_unsafe (fun _ => []) { db_path := "users.db", connection := none }
        "alice" =
      UserManager.get_user_safe (fun _ => []) { db_path := "users.db", connection := none }
        "alice" :=
  ⟨by decide, get_user_unsafe_eq_safe (fun _ => [])
    { db_path := "users.db", connection := none } "alice" (by decide)⟩

/-- A stored row used as a concrete database state. -/
def rowA : UserRow :=
  { id := 1, username := "alice", email := "alice@example.com", password_hash := "hash-one" }

/-- The same row as rowA except for the password_hash column. -/
def rowB : UserRow :=
  { id := 1, username := "alice", email := "alice@example.com", password_hash := "hash-two" }

/-- C7 counterexample: the result of get_user_safe does not determine the
stored password_hash: two stores whose single row differs only in the
password_hash column produce identical results, so the returned record
carries no password_hash field, contrary to the claim that it has the
fields id, username, email and password_hash. -/
theorem get_user_result_drops_hash :
    rowA ≠ rowB ∧
    UserManager.get_user_safe (fun _ => [rowA])
        { db_path := "users.db", connection := none } "alice" =
      UserManager.get_user_safe (fun _ => [rowB])
        { db_path := "users.db", connection := none } "alice" := by
  constructor
  · decide
  · rfl

/-- C7 amended: for every store, manager state and username (containing no
query metacharacter, so that the unsafe query keeps its intended
semantics), get_user_unsafe and get_user_safe return nothing when no row
of the connected table matches the username, and otherwise return the
first matching row projected to the fields id, username and email; the
stored password_hash column is not part of the result. -/
theorem get_user_returns_projection (store : Store) (m : UserManager) (username : String)
    (h : username.data.contains singleQuote = false) :
    ((∀ r ∈ store (m.currentConn).1.path, r.username ≠ username) →
      (UserManager.get_user_unsafe store m username).2 = .ok none ∧
      (UserManager.get_user_safe store m username).2 = .ok none) ∧
    (∀ r, (store (m.currentConn).1.path).find? (fun r => r.username = username) = some r →
      (UserManager.get_user_unsafe store m username).2 =
        .ok (some { id := r.id, username := r.username, email := r.email }) ∧
      (UserManager.get_user_safe store m username).2 =
        .ok (some { id := r.id, username := r.username, email := r.email })) := by
  have hu := get_user_agree_aux store m username h
  constructor
  · intro hnone
    have hfind :
        (store (m.currentConn).1.path).find? (fun r => r.username = username) = none := by
      rw [List.find?_eq_none]
      intro a ha
      simp [hnone a ha]
    rw [hu]
    constructor <;> simp [UserManager.get_user_safe, selectByUsername, hfind]
  · intro r hr
    rw [hu]
    constructor <;> simp [UserManager.get_user_safe, selectByUsername, rowToDict, hr]

theorem get_user_returns_projection_witness :
    (UserManager.get_user_safe (fun _ => [rowA])
        { db_path := "users.db", connection := none } "alice").2 =
      .ok (some { id := 1, username := "alice", email := "alice@example.com" }) := by
  have h := (get_user_returns_projection (fun _ => [rowA])
      { db_path := "users.db", connection := none } "alice" (by decide)).2 rowA (by rfl)
  exact h.2

/-- An environment binding nothing. -/
def envEmpty : Env := fun _ => none

/-- An environment binding only DB_HOST. -/
def envHostOverride : Env := fun k => if k = "DB_HOST" then some "otherhost" else none

/-- C3 counterexample: a ConfigManager constructed under an empty
environment yields different get_database_url results under two later
environments that differ in DB_HOST, so db_host is not resolved at
construction and the result does not depend only on the construction
environment. -/
theorem config_call_time_counterexample :
    ConfigManager.get_database_url (ConfigManager.construct envEmpty) envHostOverride ≠
      ConfigManager.get_database_url (ConfigManager.construct envEmpty) envEmpty := by
  decide

/-- C3 amended: api_key and db_password are resolved from the environment
exactly once, at construction, and are immutable afterwards, so
get_api_key and the password inside get_database_url depend only on the
construction environment; but db_host, db_port, db_user and db_name are
read from the environment at each get_database_url call, so two calls
agree whenever the call-time environments agree on those four
variables (in particular regardless of their API_KEY and DB_PASSWORD). -/
theorem config_resolution (E E1 E2 : Env)
    (hh : E1 "DB_HOST" = E2 "DB_HOST") (hp : E1 "DB_PORT" = E2 "DB_PORT")
    (hu : E1 "DB_USER" = E2 "DB_USER") (hn : E1 "DB_NAME" = E2 "DB_NAME") :
    (ConfigManager.construct E).get_api_key = envGet E "API_KEY" DEFAULT_API_KEY ∧
    (ConfigManager.construct E).db_password = envGet E "DB_PASSWORD" DEFAULT_DB_PASSWORD ∧
    ConfigManager.get_database_url (ConfigManager.construct E) E1 =
      ConfigManager.get_database_url (ConfigManager.construct E) E2 := by
  refine ⟨rfl, rfl, ?_⟩
  unfold ConfigManager.get_database_url envGet
  rw [hh, hp, hu, hn]

theorem config_resolution_witness :
    (ConfigManager.construct envEmpty).get_api_key = envGet envEmpty "API_KEY" DEFAULT_API_KEY ∧
    (ConfigManager.construct envEmpty).db_password =
      envGet envEmpty "DB_PASSWORD" DEFAULT_DB_PASSWORD ∧
    ConfigManager.get_database_url (ConfigManager.construct envEmpty) envEmpty =
      ConfigManager.get_database_url (ConfigManager.construct envEmpty) envEmpty :=
  config_resolution envEmpty envEmpty envEmpty rfl rfl rfl rfl

/-- C5: create_user hashes the password with the SHA-256 digest and stores
that hash in the inserted row, returning true, exactly when no existing
row has the username; when a row with the username exists, the uniqueness
constraint is violated and the call returns false with the store
unchanged — a total function, so the violation never escapes as an
exception. -/
theorem create_user_spec (store : Store) (H : HashLib) (m : UserManager)
    (username email password : String) :
    ((∃ r ∈ store (m.currentConn).1.path, r.username = username) →
      (UserManager.create_user store H m username email password).2.2 = false ∧
      (UserManager.create_user store H m username email password).2.1 = store) ∧
    ((∀ r ∈ store (m.currentConn).1.path, r.username ≠ username) →
      (UserManager.create_user store H m username email password).2.2 = true ∧
      (UserManager.create_user store H m username email password).2.1
          ((m.currentConn).1.path) =
        store (m.currentConn).1.path ++
          [{ id := (store (m.currentConn).1.path).length + 1, username := username,
             email := email, password_hash := H.sha256Hex password }]) := by
  constructor
  · rintro ⟨r, hr, hru⟩
    have hany :
        ((store (m.currentConn).1.path).any (fun r => r.username = username)) = true := by
      simp only [List.any_eq_true, decide_eq_true_eq]
      exact ⟨r, hr, hru⟩
    simp [UserManager.create_user, hany]
  · intro hall
    have hany :
        ((store (m.currentConn).1.path).any (fun r => r.username = username)) = false := by
      by_contra hc
      rw [Bool.not_eq_false, List.any_eq_true] at hc
      obtain ⟨r, hr, hru⟩ := hc
      exact hall r hr (by simpa using hru)
    simp [UserManager.create_user, UserManager.hash_password, hany]

theorem create_user_spec_witness :
    (UserManager.create_user (fun _ => []) ⟨fun s => s, fun s => s⟩
      { db_path := "users.db", connection := none }
      "alice" "alice@example.com" "pw").2.2 = true := by
  have h := (create_user_spec (fun _ => []) ⟨fun s => s, fun s => s⟩
      { db_path := "users.db", connection := none }
      "alice" "alice@example.com" "pw").2
  exact (h (by simp)).1

end SecurityPipeline
